import Mathlib

/-!
Verification development for the LineshtXGrowify Shopify CSV generator.

Shallow embedding of the data-transformation pipeline implemented in
`helpers/utils.py`, `backend/data_processor.py`, `backend/ai_service.py` and
`app.py`: column-value resolution, the size parser and sorter, variant
explosion, handle generation, the variant override store, size surcharges and
the Shopify row assembler.

Modelling conventions:
* Python strings are `String`; cell values are strings, an absent column is an
  absent key in an association list.
* Python `float` prices are modelled as exact rationals `ℚ` (no binary
  floating-point representation error, no NaN value; a pandas NaN never
  arises in the embedding because absent data is modelled as an absent key).
* Python `int` is `Int`.
* Python dicts keyed by strings are association lists with first-match lookup
  and in-place overwrite on assignment, as in CPython insertion-ordered dicts.
-/

namespace Linesht

/-- Whitespace strip on a character list (both ends). -/
def stripChars (cs : List Char) : List Char :=
  ((cs.dropWhile Char.isWhitespace).reverse.dropWhile Char.isWhitespace).reverse

/-- Models Python `str.strip()`. Implemented on the character list so that the
kernel can evaluate it (`String.trim` does not reduce definitionally). -/
def pyStrip (s : String) : String := String.mk (stripChars s.toList)

/-- Models Python `str.lower()` (ASCII case folding). -/
def lowerStr (s : String) : String := String.mk (s.toList.map Char.toLower)

/-- Models Python `str.upper()` (ASCII case folding). -/
def upperStr (s : String) : String := String.mk (s.toList.map Char.toUpper)

/-- Splits a character list at every occurrence of the separator, keeping
empty segments, as Python `str.split(sep)` does. -/
def splitOnChar (sep : Char) : List Char → List (List Char)
  | [] => [[]]
  | c :: rest =>
    let r := splitOnChar sep rest
    if c = sep then [] :: r
    else
      match r with
      | h :: t => (c :: h) :: t
      | [] => [[c]]

/-- Models Python `s.split(sep)` for a one-character separator. -/
def splitStr (sep : Char) (s : String) : List String :=
  (splitOnChar sep s.toList).map String.mk

/-- Concatenation of character lists with a separator between segments. -/
def joinCharLists (sep : List Char) : List (List Char) → List Char
  | [] => []
  | [x] => x
  | x :: y :: t => x ++ sep ++ joinCharLists sep (y :: t)

/-- Models Python `sep.join(strings)` for the separators used by the code. -/
def joinWith (sep : String) (l : List String) : String :=
  String.mk (joinCharLists sep.toList (l.map String.toList))

/-- Lexicographic code-point comparison of character lists; models Python
string comparison `a <= b`. -/
def charListLe : List Char → List Char → Bool
  | [], _ => true
  | _ :: _, [] => false
  | a :: as, b :: bs =>
    if a.val < b.val then true
    else if b.val < a.val then false
    else charListLe as bs

/-- Python string `<=` (code-point lexicographic). -/
def strLe (a b : String) : Bool := charListLe a.toList b.toList

/-- Accumulates the numeric value of a digit run, ignoring underscore
grouping characters (Python integer literals allow them). -/
def digitsToNat (cs : List Char) : Nat :=
  cs.foldl (fun acc c => if c = '_' then acc else acc * 10 + (c.toNat - 48)) 0

/-- Digit tail of a Python `int` literal: digits with single underscores
allowed between digit groups. -/
def pyIntDigitsRest : List Char → Bool
  | [] => true
  | '_' :: [] => false
  | '_' :: c :: cs => c.isDigit && pyIntDigitsRest cs
  | c :: cs => c.isDigit && pyIntDigitsRest cs

/-- Digit body of a Python `int` literal: at least one digit, underscore
grouping allowed. -/
def pyIntDigits : List Char → Bool
  | [] => false
  | c :: cs => c.isDigit && pyIntDigitsRest cs

/-- Models Python `int(s)` on a string: strip whitespace, optional sign, then
decimal digits; `none` models the `ValueError` branch. -/
def pyInt? (s : String) : Option Int :=
  match stripChars s.toList with
  | '+' :: cs => if pyIntDigits cs then some (digitsToNat cs : Int) else none
  | '-' :: cs => if pyIntDigits cs then some (-(digitsToNat cs : Int)) else none
  | cs => if pyIntDigits cs then some (digitsToNat cs : Int) else none

/-- Unsigned body of a simple Python `float` literal: `digit+`,
`digit+ . digit*` or `. digit+` (exponent and special forms omitted; the
pipeline only feeds plain decimal price strings to `float`). -/
def pyFloatCore (cs : List Char) : Option ℚ :=
  if cs.count '.' = 0 then
    if !cs.isEmpty && cs.all Char.isDigit then some (digitsToNat cs : ℚ) else none
  else if cs.count '.' = 1 then
    let ip := cs.takeWhile (fun c => c ≠ '.')
    let fp := (cs.dropWhile (fun c => c ≠ '.')).drop 1
    if (ip.all Char.isDigit && fp.all Char.isDigit) && (!ip.isEmpty || !fp.isEmpty) then
      some ((digitsToNat ip : ℚ) + (digitsToNat fp : ℚ) / (10 : ℚ) ^ fp.length)
    else none
  else none

/-- Models Python `float(s)` on a plain decimal string; `none` models the
`ValueError` branch. -/
def pyFloat? (s : String) : Option ℚ :=
  match stripChars s.toList with
  | '+' :: cs => pyFloatCore cs
  | '-' :: cs => (pyFloatCore cs).map (fun q => -q)
  | cs => pyFloatCore cs

/-- Models `clean_value(value)` (string mode) from `helpers/utils.py` applied
to a string: the literal `'nan'`/`'NaN'` and blank strings become `""`,
anything else is stripped. -/
def cleanStr (s : String) : String :=
  if s = "nan" ∨ s = "NaN" ∨ pyStrip s = "" then "" else pyStrip s

/-- Models `clean_value(value, is_numeric=True, default_numeric=d)` from
`helpers/utils.py` applied to a string: NaN-like or blank input and failed
`float` conversion give the default. -/
def cleanNum (s : String) (d : ℚ) : ℚ :=
  if s = "nan" ∨ s = "NaN" ∨ pyStrip s = "" then d
  else
    match pyFloat? (pyStrip s) with
    | some q => q
    | none => d

/-- Python dict assignment `m[k] = v`: overwrite in place, append if new. -/
def dictSet (k : String) (v : α) : List (String × α) → List (String × α)
  | [] => [(k, v)]
  | (k1, v1) :: m => if k1 = k then (k, v) :: m else (k1, v1) :: dictSet k v m

/-- Python `m.get(k, d)`. -/
def dictGet (m : List (String × α)) (k : String) (d : α) : α :=
  match m.lookup k with
  | some v => v
  | none => d

/-- Resolves a canonical field to the raw cell value: `none` when the field is
unmapped, mapped to a falsy column name, or the column is absent from the row.
Mirrors the guard `if actual_column and actual_column in row.index`. -/
def getCell (mapping row : List (String × String)) (name : String) : Option String :=
  match mapping.lookup name with
  | some actual => if actual ≠ "" then row.lookup actual else none
  | none => none

/-- Models `get_column_value(row, column_mapping, standard_name, default)`
from `helpers/utils.py`. -/
def getColumnValue (mapping row : List (String × String)) (name dflt : String) : String :=
  (getCell mapping row name).getD dflt

/-- Cleaned string field: `clean_value(get_column_value(row, m, name, dflt))`. -/
def resolveStr (mapping row : List (String × String)) (name dflt : String) : String :=
  cleanStr (getColumnValue mapping row name dflt)

/-- Numeric field:
`clean_value(get_column_value(row, m, name, 0), is_numeric=True)`. When the
field is unmapped or absent the Python default `0` cleans to `0.0`. -/
def resolveNum (mapping row : List (String × String)) (name : String) : ℚ :=
  match getCell mapping row name with
  | some v => cleanNum v 0
  | none => 0

/-- Models `parse_size_and_quantity` from `helpers/utils.py`: `"custom"`
(case-insensitively) maps to `("Custom", 0)`; a token with exactly one hyphen
whose right part is a Python integer maps to the stripped left part with that
quantity; everything else maps to the stripped token with quantity `0`. -/
def parseSizeAndQuantity (s0 : String) : String × Int :=
  let s := pyStrip s0
  if lowerStr s = "custom" then ("Custom", 0)
  else if s.toList.count '-' = 1 then
    let parts := splitStr '-' s
    match pyInt? (pyStrip ((parts.drop 1).headD "")) with
    | some q => (pyStrip (parts.headD ""), q)
    | none => (s, 0)
  else (s, 0)

/-- Fixed ordered list of standard apparel sizes (`standard_order`). -/
def standardOrder : List String :=
  ["XXS", "XS", "S", "M", "L", "XL", "XXL", "XXXL", "2XL", "3XL", "4XL", "5XL"]

/-- Index of the first standard size matching case-insensitively, if any. -/
def findStdIdx (size : String) : Option Nat :=
  standardOrder.findIdx? (fun std => upperStr size == upperStr std)

/-- Pure numeric size: regex `^\d+$`. -/
def isAllDigits (s : String) : Bool :=
  !s.toList.isEmpty && s.toList.all Char.isDigit

/-- Sizes like `X10`: regex `^X\d+` on the uppercased label. -/
def isXNumForm (s : String) : Bool :=
  match (upperStr s).toList with
  | 'X' :: c :: _ => c.isDigit
  | _ => false

/-- First maximal digit run of a string (first match of `re.findall(r'\d+', s)`). -/
def firstDigitRunAux : List Char → Option (List Char)
  | [] => none
  | c :: cs => if c.isDigit then some (c :: cs.takeWhile Char.isDigit) else firstDigitRunAux cs

/-- First embedded integer of a size label, if any digit occurs. -/
def firstDigitRun (s : String) : Option Int :=
  (firstDigitRunAux s.toList).map (fun ds => (digitsToNat ds : Int))

/-- Splits unique size labels into the (standard-index, label), (numeric-value,
label) and custom buckets, preserving relative order inside each bucket. -/
def classifySizes : List String → List (Nat × String) × List (Int × String) × List String
  | [] => ([], [], [])
  | s :: rest =>
    let (stds, nums, custs) := classifySizes rest
    match findStdIdx s with
    | some i => ((i, s) :: stds, nums, custs)
    | none =>
      if isAllDigits s then (stds, ((digitsToNat s.toList : Int), s) :: nums, custs)
      else if isXNumForm s then
        match firstDigitRun s with
        | some n => (stds, (n, s) :: nums, custs)
        | none => (stds, nums, s :: custs)
      else (stds, nums, s :: custs)

/-- Ordered insertion keeping earlier elements in front of equal later ones;
together with `sortStable` this models Python's stable `list.sort`. -/
def insertLe (le : α → α → Bool) (a : α) : List α → List α
  | [] => [a]
  | b :: l => if le a b then a :: b :: l else b :: insertLe le a l

/-- Stable insertion sort by a boolean `≤` test. -/
def sortStable (le : α → α → Bool) : List α → List α
  | [] => []
  | a :: l => insertLe le a (sortStable le l)

/-- Deduplication preserving first occurrences, with an accumulator of
already-seen labels. -/
def dedupFirstAux (seen : List String) : List String → List String
  | [] => []
  | a :: l => if a ∈ seen then dedupFirstAux seen l else a :: dedupFirstAux (a :: seen) l

/-- Deduplication preserving first occurrences (the `unique_sizes` loop). -/
def dedupFirst (l : List String) : List String := dedupFirstAux [] l

/-- Models `sort_sizes_with_quantities` from `helpers/utils.py`: split the
comma-separated list, parse every token, deduplicate labels preserving first
occurrence (later quantities overwrite earlier ones in the map), then emit all
standard sizes by standard index, all numeric sizes ascending, and all custom
sizes in Python string order. -/
def sortSizesWithQuantities (sizesList : String) : List String × List (String × Int) :=
  let sizeStrings := ((splitStr ',' sizesList).map pyStrip).filter (fun t => !t.toList.isEmpty)
  let parsed := sizeStrings.map parseSizeAndQuantity
  let qmap := parsed.foldl (fun m p => dictSet p.1 p.2 m) []
  let uniqueSizes := dedupFirst (parsed.map Prod.fst)
  let cl := classifySizes uniqueSizes
  let stdsSorted := sortStable (fun a b => decide (a.1 ≤ b.1)) cl.1
  let numsSorted := sortStable (fun a b => decide (a.1 ≤ b.1)) cl.2.1
  let custsSorted := sortStable strLe cl.2.2
  (stdsSorted.map Prod.snd ++ numsSorted.map Prod.snd ++ custsSorted, qmap)

/-- Models `sort_sizes` from `app.py` (label-only convenience form). -/
def sortSizes (sizesList : String) : List String :=
  (sortSizesWithQuantities sizesList).1

/-- Word characters for the handle regex `[^\w\s-]` (ASCII `\w`). -/
def isWordChar (c : Char) : Bool := c.isAlphanum || c = '_'

/-- Replaces every whitespace run by a single hyphen (regex `\s+` → `-`). -/
def wsToHyphen : Bool → List Char → List Char
  | _, [] => []
  | inRun, c :: rest =>
    if c.isWhitespace then
      if inRun then wsToHyphen true rest else '-' :: wsToHyphen true rest
    else c :: wsToHyphen false rest

/-- Collapses every hyphen run to a single hyphen (regex `-+` → `-`). -/
def collapseHyphenRuns : Bool → List Char → List Char
  | _, [] => []
  | inRun, c :: rest =>
    if c = '-' then
      if inRun then collapseHyphenRuns true rest else '-' :: collapseHyphenRuns true rest
    else c :: collapseHyphenRuns false rest

/-- Strips leading and trailing hyphens (Python `str.strip("-")`). -/
def stripHyphens (cs : List Char) : List Char :=
  ((cs.dropWhile (fun c => c = '-')).reverse.dropWhile (fun c => c = '-')).reverse

/-- Handle cleaning chain from `_generate_handles` / `app.py`: drop characters
outside `[\w\s-]`, turn whitespace runs into hyphens, lowercase, collapse
hyphen runs, strip outer hyphens. -/
def slugify (s : String) : String :=
  String.mk (stripHyphens (collapseHyphenRuns false
    ((wsToHyphen false (s.toList.filter
      (fun c => isWordChar c || c.isWhitespace || c = '-'))).map Char.toLower)))

/-- Raw handle of a (title, code) pair: stripped title, hyphen, stripped code,
then the cleaning chain. -/
def generateHandle (title code : String) : String :=
  slugify (pyStrip title ++ "-" ++ pyStrip code)

/-- SKU resolution used for handles and `Variant SKU`:
`get_column_value(row, m, 'Variant SKU', '') or get_column_value(row, m, 'product code', '')`. -/
def skuOrCode (mapping row : List (String × String)) : String :=
  let a := getColumnValue mapping row "Variant SKU" ""
  if a ≠ "" then a else getColumnValue mapping row "product code" ""

/-- Configuration dictionary consumed by the pipeline, with the defaults of
`ConfigManager.get_default_config` and the `config.get(..., default)` calls. -/
structure Config where
  vendorName : String := "YourBrandName"
  inventoryPolicy : String := "deny"
  defaultQty : Int := 10
  defaultComparePrice : ℚ := 0
  enableSurcharge : Bool := false
  surchargeRules : List (String × ℚ) := []
  bulkQtyMode : Bool := false
  bulkQty : Int := 10
  bulkComparePriceMode : Bool := false
  bulkComparePrice : ℚ := 0
  bulkSurchargeMode : Bool := false
  bulkSurchargePercent : ℚ := 0
  useExpectedQty : Bool := true
  fallbackQty : Option Int := none
  useExpectedComparePrice : Bool := true
  fallbackComparePrice : Option ℚ := none
  deriving Repr

/-- Streamlit session state slice used by the pipeline: the two override
stores; `none` models the key being absent from `st.session_state`. -/
structure SessionState where
  variantQuantities : Option (List (String × Int)) := none
  variantComparePrices : Option (List (String × ℚ)) := none
  deriving Repr

/-- One exploded variant row: the source row plus the columns added by
`_process_variants`, `_generate_handles`, `_apply_size_surcharges` and
`_apply_variant_mappings`. -/
structure VRow where
  src : List (String × String)
  sizesList : String
  displaySize : String
  coloursList : String
  extractedQuantity : Int
  uploadedComparePrice : ℚ
  handle : String := ""
  finalVariantPrice : Option ℚ := none
  variantInventoryQty : Int := 0
  variantCompareAtPrice : ℚ := 0
  enhancedDescription : Option String := none
  enhancedBody : Option String := none
  aiTags : Option String := none
  deriving DecidableEq, Repr

/-- Display size of a label: text before the first hyphen when the label
contains one (`size.split('-')[0].strip() if size and '-' in size else size`). -/
def displaySizeOf (size : String) : String :=
  if size ≠ "" ∧ '-' ∈ size.toList then pyStrip ((splitStr '-' size).headD "") else size

/-- Models `DataProcessor._extract_quantity`. -/
def extractQuantity (size : String) (qmap : List (String × Int)) (cfg : Config) : Int :=
  if cfg.bulkQtyMode then cfg.bulkQty
  else if cfg.useExpectedQty then
    let e := dictGet qmap size 0
    if e > 0 then e else cfg.fallbackQty.getD cfg.defaultQty
  else cfg.defaultQty

/-- Models `DataProcessor._extract_compare_price`. -/
def extractComparePrice (mapping row : List (String × String)) (cfg : Config) : ℚ :=
  if cfg.bulkComparePriceMode then cfg.bulkComparePrice
  else if cfg.useExpectedComparePrice then
    let v := getColumnValue mapping row "Variant Compare At Price" ""
    if v ≠ "" then
      match pyFloat? (pyStrip v) with
      | some q => if 0 ≤ q then q else cfg.fallbackComparePrice.getD cfg.defaultComparePrice
      | none => cfg.fallbackComparePrice.getD cfg.defaultComparePrice
    else cfg.fallbackComparePrice.getD cfg.defaultComparePrice
  else cfg.defaultComparePrice

/-- Size cell of a source row: the `'Option1 Value' or 'size'` fallback chain
of `_process_variants`. -/
def sizesValueOf (mapping row : List (String × String)) : String :=
  let a := getColumnValue mapping row "Option1 Value" ""
  if a ≠ "" then a else getColumnValue mapping row "size" ""

/-- Colour cell of a source row: the `'Option2 Value' or 'colour'` fallback
chain of `_process_variants`. -/
def coloursValueOf (mapping row : List (String × String)) : String :=
  let a := getColumnValue mapping row "Option2 Value" ""
  if a ≠ "" then a else getColumnValue mapping row "colour" ""

/-- Parsed colour tokens of a source row: split on commas, strip, drop
empties; duplicates are retained. -/
def parsedColours (mapping row : List (String × String)) : List String :=
  ((splitStr ',' (cleanStr (coloursValueOf mapping row))).map pyStrip).filter
    (fun c => !c.toList.isEmpty)

/-- Ordered, deduplicated size labels of a source row (output of the size
sorter on the cleaned size cell). -/
def parsedSizes (mapping row : List (String × String)) : List String :=
  (sortSizesWithQuantities (cleanStr (sizesValueOf mapping row))).1

/-- Explosion of one source row into its size × colour variants, modelling the
body of the `for _, row in df_raw.iterrows()` loop of
`DataProcessor._process_variants`. -/
def processVariantsRow (mapping : List (String × String)) (cfg : Config)
    (row : List (String × String)) : List VRow :=
  let colors := parsedColours mapping row
  let uploadedCP := extractComparePrice mapping row cfg
  let sortedSizes := if (parsedSizes mapping row).isEmpty then [""] else parsedSizes mapping row
  let qmap :=
    if (parsedSizes mapping row).isEmpty then [("", (0 : Int))]
    else (sortSizesWithQuantities (cleanStr (sizesValueOf mapping row))).2
  let effColors := if colors.isEmpty then [""] else colors
  sortedSizes.flatMap (fun size => effColors.map (fun color =>
    { src := row
      sizesList := size
      displaySize := displaySizeOf size
      coloursList := color
      extractedQuantity := extractQuantity size qmap cfg
      uploadedComparePrice := uploadedCP }))

/-- Models `DataProcessor._process_variants` over the whole table. -/
def processVariants (mapping : List (String × String)) (cfg : Config)
    (rows : List (List (String × String))) : List VRow :=
  rows.flatMap (processVariantsRow mapping cfg)

/-- Models `DataProcessor._generate_handles`: title + SKU/product-code slug. -/
def generateHandles (mapping : List (String × String)) (rows : List VRow) : List VRow :=
  rows.map (fun r =>
    let t := getColumnValue mapping r.src "Title" "Unknown"
    { r with handle := generateHandle t (skuOrCode mapping r.src) })

/-- Models `DataProcessor.process_data`: explosion followed by handles. -/
def processData (mapping : List (String × String)) (cfg : Config)
    (rows : List (List (String × String))) : List VRow :=
  generateHandles mapping (processVariants mapping cfg rows)

/-- Value of one output CSV cell: the emitted dicts hold strings in some
columns and numbers (int/float, modelled as `ℚ`) in others. -/
inductive Field where
  | str (s : String)
  | num (q : ℚ)
  deriving DecidableEq, Repr

/-- One emitted Shopify CSV record, as the Python dict literal: ordered
key/value pairs. -/
abbrev ERow := List (String × Field)

/-- Models `DataProcessor._get_empty_shopify_fields`. -/
def emptyShopifyFields : ERow :=
  [("Image Src", Field.str ""),
   ("Image Position", Field.str ""),
   ("Image Alt Text", Field.str ""),
   ("Gift Card", Field.str "FALSE"),
   ("SEO Title", Field.str ""),
   ("SEO Description", Field.str ""),
   ("Google Shopping / Google Product Category", Field.str ""),
   ("Google Shopping / Gender", Field.str ""),
   ("Google Shopping / Age Group", Field.str ""),
   ("Google Shopping / MPN", Field.str ""),
   ("Google Shopping / AdWords Grouping", Field.str ""),
   ("Google Shopping / AdWords Labels", Field.str ""),
   ("Google Shopping / Condition", Field.str ""),
   ("Google Shopping / Custom Product", Field.str ""),
   ("Google Shopping / Custom Label 0", Field.str ""),
   ("Google Shopping / Custom Label 1", Field.str ""),
   ("Google Shopping / Custom Label 2", Field.str ""),
   ("Google Shopping / Custom Label 3", Field.str ""),
   ("Google Shopping / Custom Label 4", Field.str ""),
   ("Variant Image", Field.str ""),
   ("Variant Weight Unit", Field.str ""),
   ("Variant Tax Code", Field.str ""),
   ("Cost per item", Field.num 0),
   ("Status", Field.str "draft")]

/-- Surcharged price of one row inside `DataProcessor._apply_size_surcharges`
(the `apply_surcharge` closure); the result lands in `final_variant_price`. -/
def surchargeValue (mapping : List (String × String)) (cfg : Config) (r : VRow) : ℚ :=
  let basePrice := resolveNum mapping r.src "Variant Price"
  if basePrice ≤ 0 then basePrice
  else if cfg.bulkSurchargeMode then basePrice * (1 + cfg.bulkSurchargePercent / 100)
  else
    match cfg.surchargeRules.lookup (upperStr (pyStrip r.displaySize)) with
    | some p => basePrice * (1 + p)
    | none => basePrice

/-- Row-level effect of `_apply_size_surcharges`: store the surcharged price
in the `final_variant_price` column. -/
def applySurchargeRow (mapping : List (String × String)) (cfg : Config) (r : VRow) : VRow :=
  { r with finalVariantPrice := some (surchargeValue mapping cfg r) }

/-- Models `DataProcessor._apply_size_surcharges`: when enabled, adds the
`final_variant_price` column; otherwise the frame is returned unchanged. -/
def applySizeSurcharges (mapping : List (String × String)) (cfg : Config)
    (rows : List VRow) : List VRow :=
  if !cfg.enableSurcharge then rows
  else rows.map (applySurchargeRow mapping cfg)

/-- Variant key column `_variant_key` = `size|color|title` with stripped
components, as built in `_apply_variant_mappings`. -/
def variantKeyOf (mapping : List (String × String)) (r : VRow) : String :=
  pyStrip r.sizesList ++ "|" ++ pyStrip r.coloursList ++ "|" ++
    pyStrip (getColumnValue mapping r.src "Title" "Unknown")

/-- Row-level effect of the effective (second) definition of
`DataProcessor._apply_variant_mappings`: bulk modes override everything, else
the session stores are consulted, else the extracted values are used. -/
def applyVariantMappingsRow (mapping : List (String × String)) (cfg : Config)
    (session : SessionState) (r : VRow) : VRow :=
  let key := variantKeyOf mapping r
  let qty : Int :=
    if cfg.bulkQtyMode then cfg.bulkQty
    else
      match session.variantQuantities with
      | some store => dictGet store key cfg.defaultQty
      | none => r.extractedQuantity
  let cp : ℚ :=
    if cfg.bulkComparePriceMode then cfg.bulkComparePrice
    else
      match session.variantComparePrices with
      | some store => dictGet store key cfg.defaultComparePrice
      | none => r.uploadedComparePrice
  { r with variantInventoryQty := qty, variantCompareAtPrice := cp }

/-- Models the effective (second) definition of
`DataProcessor._apply_variant_mappings` over the whole frame. -/
def applyVariantMappings (mapping : List (String × String)) (cfg : Config)
    (session : SessionState) (rows : List VRow) : List VRow :=
  rows.map (applyVariantMappingsRow mapping cfg session)

/-- Sort key `(size_order_index, colour)` of a variant row inside a group;
unknown sizes get the sentinel index 999. -/
def groupSortKey (orderMap : List (String × Nat)) (r : VRow) : Nat × String :=
  (dictGet orderMap r.sizesList 999, r.coloursList)

/-- Python tuple `<=` on `(int, str)` keys. -/
def keyLe (a b : Nat × String) : Bool :=
  if a.1 < b.1 then true else if a.1 = b.1 then strLe a.2 b.2 else false

/-- Models `DataProcessor._sort_variants_in_group`: the distinct sizes of the
group are re-sorted by the size sorter, indexed, and the group rows are stably
sorted by `(size_order_index, colour)`. -/
def sortVariantsInGroup (grp : List VRow) : List VRow :=
  let sizesInGroup := dedupFirst (grp.map (fun r => r.sizesList))
  let sortedSizesForGroup := (sortSizesWithQuantities (joinWith "," sizesInGroup)).1
  let orderMap := sortedSizesForGroup.enum.foldl (fun m p => dictSet p.2 p.1 m) []
  sortStable (fun a b => keyLe (groupSortKey orderMap a) (groupSortKey orderMap b)) grp

/-- Models `DataProcessor._create_main_product_row`. -/
def createMainProductRow (mapping : List (String × String)) (cfg : Config) (r : VRow) : ERow :=
  let displaySize := cleanStr r.displaySize
  let hasSizes := displaySize ≠ ""
  let hasColors := cleanStr r.coloursList ≠ ""
  let bodyHtml :=
    match r.enhancedDescription with
    | some d => d
    | none =>
      match r.enhancedBody with
      | some b => b
      | none =>
        let description := resolveStr mapping r.src "Body (HTML)" ""
        if description ≠ "" then "<p>" ++ description ++ "</p>" else ""
  let variantPrice :=
    match r.finalVariantPrice with
    | some q => q
    | none => resolveNum mapping r.src "Variant Price"
  [("Handle", Field.str (cleanStr r.handle)),
   ("Title", Field.str (resolveStr mapping r.src "Title" "Unknown")),
   ("Body (HTML)", Field.str bodyHtml),
   ("Vendor", Field.str cfg.vendorName),
   ("Product Category", Field.str (resolveStr mapping r.src "Product Category" "")),
   ("Type", Field.str (resolveStr mapping r.src "Type" "")),
   ("Tags", Field.str (cleanStr (r.aiTags.getD ""))),
   ("Published", Field.str
     (if lowerStr (resolveStr mapping r.src "published" "") = "active" then "TRUE" else "FALSE")),
   ("Option1 Name", Field.str (if hasSizes then "Size" else "")),
   ("Option1 Value", Field.str displaySize),
   ("Option2 Name", Field.str (if hasColors then "Color" else "")),
   ("Option2 Value", Field.str (cleanStr r.coloursList)),
   ("Option3 Name", Field.str ""),
   ("Option3 Value", Field.str ""),
   ("Variant SKU", Field.str (cleanStr (skuOrCode mapping r.src))),
   ("Variant Grams", Field.num 0),
   ("Variant Inventory Tracker", Field.str ""),
   ("Variant Inventory Qty", Field.num (r.variantInventoryQty : ℚ)),
   ("Variant Inventory Policy", Field.str cfg.inventoryPolicy),
   ("Variant Fulfillment Service", Field.str "manual"),
   ("Variant Compare At Price", Field.num r.variantCompareAtPrice),
   ("Variant Price", Field.num variantPrice),
   ("Variant Requires Shipping", Field.str "TRUE"),
   ("Variant Taxable", Field.str "TRUE")] ++ emptyShopifyFields

/-- Models the effective (second) definition of
`DataProcessor._create_variant_row`. -/
def createVariantRow (mapping : List (String × String)) (cfg : Config)
    (handle : String) (r : VRow) : ERow :=
  [("Handle", Field.str (cleanStr handle)),
   ("Title", Field.str ""),
   ("Body (HTML)", Field.str ""),
   ("Vendor", Field.str ""),
   ("Product Category", Field.str ""),
   ("Type", Field.str ""),
   ("Tags", Field.str ""),
   ("Published", Field.str ""),
   ("Option1 Name", Field.str ""),
   ("Option1 Value", Field.str (cleanStr r.sizesList)),
   ("Option2 Name", Field.str ""),
   ("Option2 Value", Field.str (cleanStr r.coloursList)),
   ("Option3 Name", Field.str ""),
   ("Option3 Value", Field.str ""),
   ("Variant SKU", Field.str (cleanStr (skuOrCode mapping r.src))),
   ("Variant Grams", Field.num 0),
   ("Variant Inventory Tracker", Field.str ""),
   ("Variant Inventory Qty", Field.num (r.variantInventoryQty : ℚ)),
   ("Variant Inventory Policy", Field.str cfg.inventoryPolicy),
   ("Variant Fulfillment Service", Field.str "manual"),
   ("Variant Compare At Price", Field.num r.variantCompareAtPrice),
   ("Variant Price", Field.num (resolveNum mapping r.src "Variant Price")),
   ("Variant Requires Shipping", Field.str "TRUE"),
   ("Variant Taxable", Field.str "TRUE")] ++ emptyShopifyFields

/-- Emission of one sorted Handle group: index 0 becomes the main product row,
the rest become variant rows. -/
def emitGroup (mapping : List (String × String)) (cfg : Config) (handle : String) :
    List VRow → List ERow
  | [] => []
  | r :: rest => createMainProductRow mapping cfg r :: rest.map (createVariantRow mapping cfg handle)

/-- String values the final cleanup loop replaces by `""`. -/
def badStrings : List String := ["nan", "NaN", "None"]

/-- Per-cell effect of the final cleanup loop
(`replace(['nan', 'NaN', 'None'], '')` on object columns, `fillna` is a no-op
in the NaN-free embedding). -/
def cleanupField : Field → Field
  | .str s => .str (if s ∈ badStrings then "" else s)
  | .num q => .num q

/-- Row-wise form of the final cleanup loop of `generate_shopify_csv`. -/
def cleanupRow (row : ERow) : ERow := row.map (fun kv => (kv.1, cleanupField kv.2))

/-- Models `DataProcessor.generate_shopify_csv`: surcharges, variant mappings,
grouping by handle (pandas `groupby` sorts group keys), within-group sorting,
first-row/variant-row emission and the final cleanup. -/
def generateShopifyCsv (mapping : List (String × String)) (cfg : Config)
    (session : SessionState) (rows : List VRow) : List ERow :=
  let rows1 := applySizeSurcharges mapping cfg rows
  let rows2 := applyVariantMappings mapping cfg session rows1
  let handles := sortStable strLe (dedupFirst (rows2.map (fun r => r.handle)))
  ((handles.map (fun h =>
    emitGroup mapping cfg h (sortVariantsInGroup (rows2.filter (fun r => r.handle == h))))).flatten).map
    cleanupRow

/-- Override-store key `size|color|title`. -/
def variantKeyStr (size color title : String) : String :=
  size ++ "|" ++ color ++ "|" ++ title

/-- Seeding loop for `st.session_state.variant_quantities` in
`DataProcessor.initialize_variants`: quantity = extracted quantity when
positive, else the configured default. -/
def seedVariantQuantities (variants : List (String × String × String))
    (extracted : List (String × Int)) (defaultQty : Int) : List (String × Int) :=
  variants.foldl (fun m v =>
    let key := variantKeyStr v.1 v.2.1 v.2.2
    let e := dictGet extracted key 0
    dictSet key (if e > 0 then e else defaultQty) m) []

/-- Models `DataProcessor._apply_bulk_quantities`: every known variant key is
overwritten with the bulk quantity. -/
def applyBulkQuantityStore (variants : List (String × String × String)) (bulkQty : Int)
    (store : List (String × Int)) : List (String × Int) :=
  variants.foldl (fun m v => dictSet (variantKeyStr v.1 v.2.1 v.2.2) bulkQty m) store

/-- Explicit per-variant edit from the management form in `app.py`
(`st.session_state.variant_quantities[k] = qty` and
`st.session_state.variant_compare_prices[k] = price`). -/
def setVariantOverride (key : String) (qty : Int) (cp : ℚ)
    (stores : List (String × Int) × List (String × ℚ)) :
    List (String × Int) × List (String × ℚ) :=
  (dictSet key qty stores.1, dictSet key cp stores.2)

/-- Round half to even at integer precision; models Python `round` on an
exact rational value. -/
def roundHalfEven (q : ℚ) : ℤ :=
  let f := ⌊q⌋
  let r := q - f
  if r < 1 / 2 then f
  else if 1 / 2 < r then f + 1
  else if f % 2 = 0 then f else f + 1

/-- Models Python `round(x, 2)` under exact rational arithmetic. -/
def round2 (q : ℚ) : ℚ := (roundHalfEven (q * 100) : ℚ) / 100

/-- Models `get_final_compare_price` from `app.py`: when the surcharge is
enabled and the stripped, uppercased size is in the rules, the compare price
is recomputed from the variant (list) price; otherwise the existing
compare-at price is kept. -/
def getFinalComparePrice (enableSurcharge : Bool) (rules : List (String × ℚ))
    (mapping : List (String × String)) (r : VRow) : ℚ :=
  let basePrice := resolveNum mapping r.src "variant price"
  let size := pyStrip (upperStr r.sizesList)
  if enableSurcharge then
    match rules.lookup size with
    | some p => round2 (basePrice * (1 + p))
    | none => r.variantCompareAtPrice
  else r.variantCompareAtPrice

/-- Column assignment
`df["Variant Compare At Price"] = df.apply(get_final_compare_price, axis=1)`
from `app.py`. -/
def applyFinalComparePrices (enableSurcharge : Bool) (rules : List (String × ℚ))
    (mapping : List (String × String)) (rows : List VRow) : List VRow :=
  rows.map (fun r =>
    { r with variantCompareAtPrice := getFinalComparePrice enableSurcharge rules mapping r })

/-- Python value returned by `refine_and_tag` in `app.py`: either a 2-tuple or
a bare string, depending on the branch taken. -/
inductive PyValue where
  | tup (d t : String)
  | str (s : String)
  deriving DecidableEq, Repr

/-- Python `s.split('\n', 1)`: split at the first newline only. -/
def splitOnceAtNewline (s : String) : List String :=
  let cs := s.toList
  if '\n' ∈ cs then
    [String.mk (cs.takeWhile (fun c => c ≠ '\n')),
     String.mk ((cs.dropWhile (fun c => c ≠ '\n')).drop 1)]
  else [s]

/-- Models `AIService._refine_and_tag` from `backend/ai_service.py`. The AI
call is abstracted as an `Except`: `.error` models `generate_content` raising,
`.ok resp` models `(response.text or "")`. -/
def aiServiceRefineAndTag (enabled : Bool) (text : String)
    (call : Except String String) : String × String :=
  if !enabled || text = "" then (text, "")
  else
    match call with
    | .error _ => (text, "")
    | .ok resp =>
      let result := pyStrip resp
      match splitOnceAtNewline result with
      | line1 :: line2 :: _ => (pyStrip line1, pyStrip line2)
      | _ => (result, "")

/-- Models `refine_and_tag` from `app.py`: the AI-disabled branch returns a
2-tuple, the success branch returns the stripped response as a bare string,
and the exception branch returns the bare string `""`. -/
def appRefineAndTag (aiEnabled : Bool) (text : String)
    (call : Except String String) : PyValue :=
  if !aiEnabled then .tup text ""
  else
    match call with
    | .ok resp => .str (pyStrip resp)
    | .error _ => .str ""

/-- Tuple unpacking `desc, tags = value` at the `app.py` call site: a 2-tuple
unpacks; a string unpacks only when it has exactly two characters; anything
else raises `ValueError`. -/
def pyUnpack2 : PyValue → Except String (String × String)
  | .tup a b => .ok (a, b)
  | .str s =>
    match s.toList with
    | [a, b] => .ok (String.mk [a], String.mk [b])
    | _ => .error "ValueError"

/-- Tokens of the exact form `<text>-<integer>`: exactly one hyphen and an
integer right part, the branch of `parse_size_and_quantity` that extracts a
quantity. -/
def isSizeQtyToken (s : String) : Bool :=
  decide (s.toList.count '-' = 1) &&
    (pyInt? (pyStrip (((splitStr '-' s).drop 1).headD ""))).isSome

theorem dictGet_dictSet (k : String) (v : α) (m : List (String × α)) (d : α) :
    dictGet (dictSet k v m) k d = v := by
  induction m with
  | nil => simp [dictSet, dictGet, List.lookup]
  | cons hd tl ih =>
    obtain ⟨k1, v1⟩ := hd
    by_cases hk : k1 = k
    · simp [dictSet, hk, dictGet, List.lookup]
    · simp only [dictSet, if_neg hk]
      have hkk : (k == k1) = false := beq_eq_false_iff_ne.mpr (Ne.symm hk)
      simp only [dictGet, List.lookup, hkk] at ih ⊢
      exact ih

end Linesht

namespace Linesht

/-- C6. Size parser behaviour: `parse_size_and_quantity` maps `"M-8"` to
`("M", 8)`, `"Custom"` to `("Custom", 0)` (case-insensitive custom match),
`"L"` to `("L", 0)`, `"A-B-C"` to `("A-B-C", 0)`; it is a total function, and
every already-stripped token that is not the custom keyword and not of the
form `<text>-<integer>` yields the full token as label with quantity `0`. -/
theorem parse_size_and_quantity_spec :
    parseSizeAndQuantity "M-8" = ("M", 8) ∧
    parseSizeAndQuantity "Custom" = ("Custom", 0) ∧
    parseSizeAndQuantity "cUsToM" = ("Custom", 0) ∧
    parseSizeAndQuantity "L" = ("L", 0) ∧
    parseSizeAndQuantity "A-B-C" = ("A-B-C", 0) ∧
    ∀ s : String, pyStrip s = s → lowerStr s ≠ "custom" → isSizeQtyToken s = false →
      parseSizeAndQuantity s = (s, 0) := by
  refine ⟨by decide, by decide, by decide, by decide, by decide, ?_⟩
  intro s htrim hcustom hform
  unfold parseSizeAndQuantity
  rw [htrim, if_neg hcustom]
  by_cases hc : s.toList.count '-' = 1
  · rw [if_pos hc]
    have hnone : pyInt? (pyStrip (((splitStr '-' s).drop 1).headD "")) = none := by
      unfold isSizeQtyToken at hform
      rw [decide_eq_true hc] at hform
      simpa [Option.isSome_iff_exists] using hform
    simp only [hnone]
  · rw [if_neg hc]

theorem parse_size_and_quantity_spec_witness :
    parseSizeAndQuantity "38B" = ("38B", 0) :=
  parse_size_and_quantity_spec.2.2.2.2.2 "38B" (by decide) (by decide) (by decide)

/-- C7. Size sort ordering: for `"XL-16,S-4,Custom,M-8,10,X20"` the ordered
label list is exactly `["S", "M", "XL", "10", "X20", "Custom"]`: standard
sizes by fixed index, then numeric sizes ascending, then custom sizes. -/
theorem sort_sizes_ordering_example :
    (sortSizesWithQuantities "XL-16,S-4,Custom,M-8,10,X20").1 =
      ["S", "M", "XL", "10", "X20", "Custom"] := by
  decide

/-- C8. Handle determinism and slug form: equal (title, sku) pairs produce the
same handle string, and title `"Cool Shirt!!"` with sku `"ABC 123"` slugifies
to exactly `"cool-shirt-abc-123"`. -/
theorem handle_determinism_and_slug :
    (∀ t1 s1 t2 s2 : String, t1 = t2 → s1 = s2 →
      generateHandle t1 s1 = generateHandle t2 s2) ∧
    generateHandle "Cool Shirt!!" "ABC 123" = "cool-shirt-abc-123" := by
  refine ⟨?_, by decide⟩
  intro t1 s1 t2 s2 ht hs
  rw [ht, hs]

theorem handle_determinism_and_slug_witness :
    generateHandle "Cool Shirt!!" "ABC 123" = generateHandle "Cool Shirt!!" "ABC 123" :=
  handle_determinism_and_slug.1 "Cool Shirt!!" "ABC 123" "Cool Shirt!!" "ABC 123" rfl rfl

/-- C4. AI failure fallback: the backend `AIService._refine_and_tag` catches a
raising AI call and returns the original text with empty tags; but the
`refine_and_tag` function in `app.py`, cited by the same claim, returns the
bare string `""` in its exception branch, and the call site
`desc, tags = refine_and_tag(original)` then raises `ValueError` while
unpacking — the exception does escape in the `app.py` revision. -/
theorem ai_failure_fallback_divergence :
    aiServiceRefineAndTag true "A nice shirt" (Except.error "quota exceeded") =
      ("A nice shirt", "") ∧
    appRefineAndTag true "A nice shirt" (Except.error "quota exceeded") = PyValue.str "" ∧
    pyUnpack2 (appRefineAndTag true "A nice shirt" (Except.error "quota exceeded")) =
      Except.error "ValueError" := by
  exact ⟨rfl, rfl, rfl⟩

/-- C2. Surcharge isolation and formula, at the level of the column assignment
`df["Variant Compare At Price"] = df.apply(get_final_compare_price, axis=1)`
of `app.py`: a row whose stripped, uppercased size is not a key of the rule
map is returned completely unchanged; a row whose size is a rule key gets
compare-at price `round(base_price * (1 + percent), 2)` computed from its
current list price (`variant price`), every other field unchanged. -/
theorem size_surcharge_isolation_and_formula
    (rules : List (String × ℚ)) (mapping : List (String × String)) (rows : List VRow) :
    (applyFinalComparePrices true rules mapping rows).length = rows.length ∧
    ∀ (i : Nat) (hi : i < rows.length)
      (hi2 : i < (applyFinalComparePrices true rules mapping rows).length),
      ((rules.lookup (pyStrip (upperStr (rows.get ⟨i, hi⟩).sizesList)) = none →
        (applyFinalComparePrices true rules mapping rows).get ⟨i, hi2⟩ = rows.get ⟨i, hi⟩) ∧
      (∀ p, rules.lookup (pyStrip (upperStr (rows.get ⟨i, hi⟩).sizesList)) = some p →
        (applyFinalComparePrices true rules mapping rows).get ⟨i, hi2⟩ =
          { rows.get ⟨i, hi⟩ with
            variantCompareAtPrice := (round2 (resolveNum mapping (rows.get ⟨i, hi⟩).src "variant price" * (1 + p))) })) := by
  constructor
  · simp [applyFinalComparePrices]
  · intro i hi hi2
    have hget : (applyFinalComparePrices true rules mapping rows).get ⟨i, hi2⟩ =
        { rows.get ⟨i, hi⟩ with variantCompareAtPrice :=
            getFinalComparePrice true rules mapping (rows.get ⟨i, hi⟩) } := by
      simp [applyFinalComparePrices]
    constructor
    · intro hnone
      rw [hget]
      unfold getFinalComparePrice
      simp only [List.get_eq_getElem] at hnone
      simp [hnone]
    · intro p hp
      rw [hget]
      unfold getFinalComparePrice
      simp only [List.get_eq_getElem] at hp
      simp [hp]

end Linesht

namespace Linesht

theorem insertLe_perm (le : α → α → Bool) (a : α) (l : List α) :
    (insertLe le a l).Perm (a :: l) := by
  induction l with
  | nil => exact List.Perm.refl _
  | cons b t ih =>
    unfold insertLe
    by_cases h : le a b
    · rw [if_pos h]
    · rw [if_neg h]
      exact (ih.cons b).trans (List.Perm.swap a b t)

theorem sortStable_perm (le : α → α → Bool) (l : List α) : (sortStable le l).Perm l := by
  induction l with
  | nil => exact List.Perm.refl _
  | cons a t ih => exact (insertLe_perm le a (sortStable le t)).trans (ih.cons a)

theorem sortStable_length (le : α → α → Bool) (l : List α) :
    (sortStable le l).length = l.length :=
  (sortStable_perm le l).length_eq

theorem dedupFirstAux_nodup (l : List String) :
    ∀ seen, (dedupFirstAux seen l).Nodup ∧ ∀ x ∈ dedupFirstAux seen l, x ∉ seen := by
  induction l with
  | nil => intro seen; simp [dedupFirstAux]
  | cons a t ih =>
    intro seen
    unfold dedupFirstAux
    by_cases h : a ∈ seen
    · rw [if_pos h]; exact ih seen
    · rw [if_neg h]
      obtain ⟨hnd, hmem⟩ := ih (a :: seen)
      refine ⟨List.nodup_cons.mpr ⟨?_, hnd⟩, ?_⟩
      · intro hcon
        exact hmem a hcon (List.mem_cons_self a seen)
      · intro x hx hxseen
        rcases List.mem_cons.mp hx with rfl | hx2
        · exact h hxseen
        · exact hmem x hx2 (List.mem_cons_of_mem a hxseen)

theorem dedupFirst_nodup (l : List String) : (dedupFirst l).Nodup :=
  (dedupFirstAux_nodup l []).1

theorem perm_three_head (A B C : List α) (s : α) :
    ((s :: A) ++ B ++ C).Perm (s :: (A ++ B ++ C)) := by
  have h : (s :: A) ++ B ++ C = s :: (A ++ B ++ C) := by simp
  rw [h]

theorem perm_three_middle (A B C : List α) (s : α) :
    (A ++ (s :: B) ++ C).Perm (s :: (A ++ B ++ C)) := by
  have h1 : A ++ (s :: B) ++ C = A ++ s :: (B ++ C) := by simp
  have h2 : s :: (A ++ (B ++ C)) = s :: (A ++ B ++ C) := by simp
  rw [h1, ← h2]
  exact List.perm_middle

theorem classifySizes_perm (l : List String) :
    ((classifySizes l).1.map Prod.snd ++ (classifySizes l).2.1.map Prod.snd ++
      (classifySizes l).2.2).Perm l := by
  induction l with
  | nil => simp [classifySizes]
  | cons s t ih =>
    simp only [classifySizes]
    cases hstd : findStdIdx s with
    | some i =>
      exact (perm_three_head _ _ _ s).trans (ih.cons s)
    | none =>
      by_cases hdig : isAllDigits s
      · simp only [if_pos hdig]
        exact (perm_three_middle _ _ _ s).trans (ih.cons s)
      · simp only [if_neg hdig]
        by_cases hx : isXNumForm s
        · simp only [if_pos hx]
          cases hrun : firstDigitRun s with
          | some n => exact (perm_three_middle _ _ _ s).trans (ih.cons s)
          | none => exact List.perm_middle.trans (ih.cons s)
        · simp only [if_neg hx]
          exact List.perm_middle.trans (ih.cons s)

theorem sorted_concat_nodup (u : List String) (hu : u.Nodup) :
    ((sortStable (fun a b => decide (a.1 ≤ b.1)) (classifySizes u).1).map Prod.snd ++
     (sortStable (fun a b => decide (a.1 ≤ b.1)) (classifySizes u).2.1).map Prod.snd ++
     sortStable strLe (classifySizes u).2.2).Nodup := by
  have hp :
      ((sortStable (fun a b => decide (a.1 ≤ b.1)) (classifySizes u).1).map Prod.snd ++
       (sortStable (fun a b => decide (a.1 ≤ b.1)) (classifySizes u).2.1).map Prod.snd ++
       sortStable strLe (classifySizes u).2.2).Perm u := by
    refine List.Perm.trans ?_ (classifySizes_perm u)
    exact (((sortStable_perm _ _).map Prod.snd).append
      ((sortStable_perm _ _).map Prod.snd)).append (sortStable_perm _ _)
  exact hp.nodup_iff.mpr hu

theorem sortSizesWithQuantities_nodup (s : String) :
    (sortSizesWithQuantities s).1.Nodup :=
  sorted_concat_nodup _ (dedupFirst_nodup _)

theorem length_flatMap_map (l : List α) (l2 : List β) (g : α → β → γ) :
    (l.flatMap (fun x => l2.map (g x))).length = l.length * l2.length := by
  induction l with
  | nil => simp
  | cons a t ih => simp [ih, Nat.succ_mul, Nat.add_comm]

theorem length_ifEmpty (l : List α) (x : α) :
    (if l.isEmpty then [x] else l).length = max 1 l.length := by
  cases l with
  | nil => simp
  | cons a t =>
    simp [List.isEmpty]

theorem processVariantsRow_length (mapping : List (String × String)) (cfg : Config)
    (row : List (String × String)) :
    (processVariantsRow mapping cfg row).length =
      max 1 (parsedSizes mapping row).length * max 1 (parsedColours mapping row).length := by
  unfold processVariantsRow
  simp only [length_flatMap_map]
  rw [length_ifEmpty, length_ifEmpty]

end Linesht

namespace Linesht

/-- Exploded row used by the C1 demonstrations: size `M`, colour `Red`,
product title `Shirt`, so its variant key is `M|Red|Shirt`. -/
def bulkDemoRow : VRow :=
  { src := [("Title", "Shirt")], sizesList := "M", displaySize := "M", coloursList := "Red",
    extractedQuantity := 0, uploadedComparePrice := 0 }

/-- C1 counterexample: with bulk-quantity mode enabled (`bulk_qty = 5`), after
seeding, applying the bulk quantity and then the explicit edit
`set(key, 9, price)`, a direct store read returns 9 — but the read performed
at CSV-assembly time (`_apply_variant_mappings` with `bulk_qty_mode` on)
returns the bulk value 5, not 9: the explicit set is overridden. -/
theorem bulk_mode_overrides_explicit_set_at_assembly :
    dictGet ((setVariantOverride "M|Red|Shirt" 9 100
      (applyBulkQuantityStore [("M", "Red", "Shirt")] 5
        (seedVariantQuantities [("M", "Red", "Shirt")] [] 10), [])).1) "M|Red|Shirt" 10 = 9 ∧
    (applyVariantMappings [("Title", "Title")] { bulkQtyMode := true, bulkQty := 5 }
      { variantQuantities := some ((setVariantOverride "M|Red|Shirt" 9 100
          (applyBulkQuantityStore [("M", "Red", "Shirt")] 5
            (seedVariantQuantities [("M", "Red", "Shirt")] [] 10), [])).1) }
      [bulkDemoRow]).map (fun r => r.variantInventoryQty) ≠ [9] := by
  decide

/-- C1 (amended). Explicit set beats bulk in the store, and it is also what
CSV assembly reads provided bulk-quantity mode is not enabled at assembly
time: after seed, `apply_bulk_quantity 5` and `set(key, 9, price)`, the store
read returns 9, and `_apply_variant_mappings` emits quantity 9 for the row
with that key whenever `bulk_qty_mode` is off. -/
theorem explicit_set_wins_without_bulk_mode
    (cfg : Config) (variants : List (String × String × String))
    (extracted : List (String × Int)) (cps : List (String × ℚ)) (price : ℚ)
    (mapping : List (String × String)) (r : VRow) (key : String)
    (hbulk : cfg.bulkQtyMode = false)
    (hkey : variantKeyOf mapping r = key) :
    dictGet ((setVariantOverride key 9 price
      (applyBulkQuantityStore variants 5
        (seedVariantQuantities variants extracted cfg.defaultQty), cps)).1) key cfg.defaultQty
      = 9 ∧
    (applyVariantMappings mapping cfg
      { variantQuantities := some ((setVariantOverride key 9 price
          (applyBulkQuantityStore variants 5
            (seedVariantQuantities variants extracted cfg.defaultQty), cps)).1) }
      [r]).map (fun x => x.variantInventoryQty) = [9] := by
  constructor
  · exact dictGet_dictSet key 9 _ _
  · simp only [applyVariantMappings, applyVariantMappingsRow, List.map, hbulk,
      Bool.false_eq_true, if_false, hkey, setVariantOverride]
    rw [dictGet_dictSet]

theorem explicit_set_wins_without_bulk_mode_witness :
    dictGet ((setVariantOverride "M|Red|Shirt" 9 100
      (applyBulkQuantityStore [("M", "Red", "Shirt")] 5
        (seedVariantQuantities [("M", "Red", "Shirt")] [] (10 : Int)), [])).1) "M|Red|Shirt" 10
      = 9 ∧
    (applyVariantMappings [("Title", "Title")] {}
      { variantQuantities := some ((setVariantOverride "M|Red|Shirt" 9 100
          (applyBulkQuantityStore [("M", "Red", "Shirt")] 5
            (seedVariantQuantities [("M", "Red", "Shirt")] [] (10 : Int)), [])).1) }
      [bulkDemoRow]).map (fun x => x.variantInventoryQty) = [9] :=
  explicit_set_wins_without_bulk_mode {} [("M", "Red", "Shirt")] [] [] 100
    [("Title", "Title")] bulkDemoRow "M|Red|Shirt" rfl (by decide)

/-- Surcharge example row with size XL, list price 100 and compare price 50. -/
def surchargeRowXL : VRow :=
  { src := [("price", "100")], sizesList := "XL", displaySize := "XL", coloursList := "Red",
    extractedQuantity := 0, uploadedComparePrice := 0, variantCompareAtPrice := 50 }

/-- Surcharge example row with size M, list price 100 and compare price 50. -/
def surchargeRowM : VRow :=
  { src := [("price", "100")], sizesList := "M", displaySize := "M", coloursList := "Red",
    extractedQuantity := 0, uploadedComparePrice := 0, variantCompareAtPrice := 50 }

theorem size_surcharge_isolation_and_formula_witness :
    (applyFinalComparePrices true [("XL", 1 / 10)] [("variant price", "price")]
      [surchargeRowXL, surchargeRowM]).get? 1 = some surchargeRowM := by
  have h := ((size_surcharge_isolation_and_formula [("XL", 1 / 10)]
    [("variant price", "price")] [surchargeRowXL, surchargeRowM]).2 1 (by decide)
    (by decide)).1 (by decide)
  rw [List.get?_eq_get (by decide :
    1 < (applyFinalComparePrices true [("XL", 1 / 10)] [("variant price", "price")]
      [surchargeRowXL, surchargeRowM]).length)]
  exact congrArg some h

/-- Source row with one size and a duplicated colour token. -/
def dupColourRow : List (String × String) := [("size", "S"), ("colour", "Red,Red")]

/-- Mapping for `dupColourRow`: size and colour columns mapped to themselves. -/
def dupColourMapping : List (String × String) := [("size", "size"), ("colour", "colour")]

/-- C3 counterexample: a row whose colour field is `"Red,Red"` has one
distinct parsed size label and one distinct colour label, yet explosion emits
2 variant rows, not 1×1 — colour tokens are not deduplicated. -/
theorem variant_count_duplicate_colours :
    (processVariantsRow dupColourMapping {} dupColourRow).length = 2 ∧
    (parsedSizes dupColourMapping dupColourRow).length = 1 ∧
    (dedupFirst (parsedColours dupColourMapping dupColourRow)).length = 1 ∧
    (processVariantsRow dupColourMapping {} dupColourRow).length ≠
      (parsedSizes dupColourMapping dupColourRow).length *
        (dedupFirst (parsedColours dupColourMapping dupColourRow)).length := by
  decide

/-- C3 (amended). Variant count: explosion of a source row emits exactly
N × M rows where N is the number of distinct parsed size labels (the parsed
size list is deduplicated, `max 1` accounting for the blank-size default) and
M is the number of parsed colour tokens with duplicates retained (`max 1`
accounting for the blank-colour default); a row with blank size and blank
colour fields emits exactly 1 variant row. -/
theorem variant_count_product (mapping : List (String × String)) (cfg : Config)
    (row : List (String × String)) :
    (processVariantsRow mapping cfg row).length =
      max 1 (parsedSizes mapping row).length * max 1 (parsedColours mapping row).length ∧
    (parsedSizes mapping row).Nodup ∧
    (cleanStr (sizesValueOf mapping row) = "" → cleanStr (coloursValueOf mapping row) = "" →
      (processVariantsRow mapping cfg row).length = 1) := by
  refine ⟨processVariantsRow_length mapping cfg row, sortSizesWithQuantities_nodup _, ?_⟩
  intro hs hc
  rw [processVariantsRow_length mapping cfg row]
  have h1 : parsedSizes mapping row = [] := by
    unfold parsedSizes
    rw [hs]
    decide
  have h2 : parsedColours mapping row = [] := by
    unfold parsedColours
    rw [hc]
    decide
  rw [h1, h2]
  decide

theorem variant_count_product_witness :
    (processVariantsRow [] {} []).length = 1 :=
  (variant_count_product [] {} []).2.2 (by decide) (by decide)

/-- Source row whose title slugifies to the empty handle. -/
def bangRow : List (String × String) := [("Title", "!!!")]

/-- Mapping resolving only the title column. -/
def titleOnlyMapping : List (String × String) := [("Title", "Title")]

/-- C5 counterexample: a product whose title is `"!!!"` (and no SKU) slugifies
to the empty handle, so the assembled output contains a row whose Handle is
blank — refuting the invariant that every output row has a non-blank
Handle. -/
theorem blank_handle_in_output :
    (generateShopifyCsv titleOnlyMapping {} {}
      (processData titleOnlyMapping {} [bangRow])).length = 1 ∧
    ((generateShopifyCsv titleOnlyMapping {} {}
      (processData titleOnlyMapping {} [bangRow])).headD []).lookup "Handle" =
      some (Field.str "") := by
  decide

end Linesht

namespace Linesht

/-- Output row has a non-blank Title. -/
def titleNonBlank (er : ERow) : Bool :=
  match er.lookup "Title" with
  | some (Field.str s) => !(s == "")
  | _ => false

/-- Handle strings that survive cleaning unchanged: already stripped and not
one of the values the final cleanup blanks out. Slugified handles always
satisfy this. -/
def isCleanHandle (h : String) : Bool :=
  (pyStrip h == h) && !(badStrings.contains h)

/-- Cleaned resolved title of a row is non-blank and survives cleanup. -/
def cleanedTitleOk (mapping : List (String × String)) (r : VRow) : Bool :=
  (!(resolveStr mapping r.src "Title" "Unknown" == "")) &&
    (!(badStrings.contains (resolveStr mapping r.src "Title" "Unknown")))

/-- First row of a list (if any) has an acceptable cleaned title. -/
def headTitleOk (mapping : List (String × String)) (l : List VRow) : Bool :=
  match l.head? with
  | some r => cleanedTitleOk mapping r
  | none => true

theorem lookup_map_value (g : Field → Field) (er : ERow) (k : String) :
    (er.map (fun kv => (kv.1, g kv.2))).lookup k = (er.lookup k).map g := by
  induction er with
  | nil => rfl
  | cons kv t ih =>
    obtain ⟨k1, v1⟩ := kv
    by_cases hk : k == k1
    · simp [List.lookup, hk]
    · simp [List.lookup, hk, ih]

theorem lookup_handle_main (mapping : List (String × String)) (cfg : Config) (r : VRow) :
    (createMainProductRow mapping cfg r).lookup "Handle" =
      some (Field.str (cleanStr r.handle)) := rfl

theorem lookup_handle_variant (mapping : List (String × String)) (cfg : Config)
    (h : String) (r : VRow) :
    (createVariantRow mapping cfg h r).lookup "Handle" = some (Field.str (cleanStr h)) := rfl

theorem lookup_title_main (mapping : List (String × String)) (cfg : Config) (r : VRow) :
    (createMainProductRow mapping cfg r).lookup "Title" =
      some (Field.str (resolveStr mapping r.src "Title" "Unknown")) := rfl

theorem lookup_title_variant (mapping : List (String × String)) (cfg : Config)
    (h : String) (r : VRow) :
    (createVariantRow mapping cfg h r).lookup "Title" = some (Field.str "") := rfl

theorem cleanStr_of_cleanHandle (h : String) (hc : isCleanHandle h = true) :
    cleanStr h = h := by
  simp only [isCleanHandle, Bool.and_eq_true, beq_iff_eq, Bool.not_eq_true'] at hc
  obtain ⟨hstrip, hmem⟩ := hc
  have hmem2 : h ≠ "nan" ∧ h ≠ "NaN" ∧ h ≠ "None" := by
    simpa [badStrings] using hmem
  unfold cleanStr
  rw [hstrip]
  by_cases hemp : h = ""
  · subst hemp
    simp
  · rw [if_neg]
    push_neg
    exact ⟨hmem2.1, hmem2.2.1, hemp⟩

theorem cleanupField_of_cleanHandle (h : String) (hc : isCleanHandle h = true) :
    cleanupField (Field.str h) = Field.str h := by
  simp only [isCleanHandle, Bool.and_eq_true, beq_iff_eq, Bool.not_eq_true'] at hc
  have hforms : cleanupField (Field.str h) = Field.str (if h ∈ badStrings then "" else h) := rfl
  rw [hforms, if_neg]
  simpa using hc.2

theorem emitGroup_length (mapping : List (String × String)) (cfg : Config) (h : String)
    (g : List VRow) : (emitGroup mapping cfg h g).length = g.length := by
  cases g with
  | nil => rfl
  | cons r rest => simp [emitGroup]

theorem emitGroup_handle (mapping : List (String × String)) (cfg : Config) (h : String)
    (g : List VRow) (hg : ∀ r ∈ g, r.handle = h) :
    ∀ er ∈ emitGroup mapping cfg h g,
      er.lookup "Handle" = some (Field.str (cleanStr h)) := by
  cases g with
  | nil => intro er her; cases her
  | cons r rest =>
    intro er her
    rcases List.mem_cons.mp her with rfl | h2
    · rw [lookup_handle_main, hg r (List.mem_cons_self r rest)]
    · obtain ⟨r2, _, rfl⟩ := List.mem_map.mp h2
      exact lookup_handle_variant mapping cfg h r2

theorem sortVariantsInGroup_perm (g : List VRow) : (sortVariantsInGroup g).Perm g := by
  unfold sortVariantsInGroup
  exact sortStable_perm _ g

theorem sortVariantsInGroup_length (g : List VRow) :
    (sortVariantsInGroup g).length = g.length :=
  (sortVariantsInGroup_perm g).length_eq

theorem dedupFirstAux_mem (l : List String) :
    ∀ (seen : List String) (x : String),
      x ∈ dedupFirstAux seen l ↔ x ∈ l ∧ x ∉ seen := by
  induction l with
  | nil => intro seen x; simp [dedupFirstAux]
  | cons a t ih =>
    intro seen x
    unfold dedupFirstAux
    by_cases h : a ∈ seen
    · rw [if_pos h, ih seen x]
      constructor
      · rintro ⟨hx, hs⟩
        exact ⟨List.mem_cons_of_mem a hx, hs⟩
      · rintro ⟨hx, hs⟩
        rcases List.mem_cons.mp hx with rfl | hx2
        · exact absurd h hs
        · exact ⟨hx2, hs⟩
    · rw [if_neg h]
      constructor
      · intro hx
        rcases List.mem_cons.mp hx with rfl | hx2
        · exact ⟨List.mem_cons_self _ _, h⟩
        · obtain ⟨h1, h2⟩ := (ih (a :: seen) x).mp hx2
          refine ⟨List.mem_cons_of_mem a h1, fun hs => h2 (List.mem_cons_of_mem a hs)⟩
      · rintro ⟨hx, hs⟩
        by_cases hxa : x = a
        · subst hxa
          exact List.mem_cons_self _ _
        · apply List.mem_cons_of_mem
          refine (ih (a :: seen) x).mpr ⟨?_, ?_⟩
          · rcases List.mem_cons.mp hx with rfl | hx2
            · exact absurd rfl hxa
            · exact hx2
          · intro hmem
            rcases List.mem_cons.mp hmem with rfl | h2
            · exact hxa rfl
            · exact hs h2

theorem dedupFirst_mem (l : List String) (x : String) : x ∈ dedupFirst l ↔ x ∈ l := by
  unfold dedupFirst
  rw [dedupFirstAux_mem l [] x]
  simp

theorem filter_map_flatten (p : β → Bool) (f : α → β) (L : List (List α)) :
    ((L.flatten.map f).filter p) = (L.map (fun bl => (bl.map f).filter p)).flatten := by
  induction L with
  | nil => rfl
  | cons bl L ih =>
    simp [List.filter_append, ih, Function.comp]
    rfl

theorem flatten_nil_of_all_nil (L : List (List α)) (hall : ∀ l ∈ L, l = []) :
    L.flatten = [] := by
  induction L with
  | nil => rfl
  | cons b t ih =>
    simp only [List.flatten_cons]
    rw [hall b (List.mem_cons_self b t), List.nil_append]
    exact ih (fun l hl => hall l (List.mem_cons_of_mem b hl))

theorem flatten_single (B : String → List α) (h : String) :
    ∀ (handles : List String), h ∈ handles → handles.Nodup →
      (handles.map (fun k => if k = h then B k else [])).flatten = B h := by
  intro handles
  induction handles with
  | nil => intro hmem; cases hmem
  | cons a t ih =>
    intro hmem hnd
    by_cases ha : a = h
    · subst ha
      simp only [List.map_cons, List.flatten_cons, if_pos rfl]
      have ht : (t.map fun k => if k = a then B k else []).flatten = [] := by
        apply flatten_nil_of_all_nil
        intro l hl
        obtain ⟨k, hk, rfl⟩ := List.mem_map.mp hl
        rw [if_neg]
        intro he
        exact (List.nodup_cons.mp hnd).1 (he ▸ hk)
      rw [ht, List.append_nil]
      simp
    · have hmem2 : h ∈ t := by
        rcases List.mem_cons.mp hmem with heq | hm
        · exact absurd heq.symm ha
        · exact hm
      simp only [List.map_cons, List.flatten_cons, if_neg ha]
      rw [List.nil_append]
      exact ih hmem2 (List.nodup_cons.mp hnd).2

theorem map_handle_applyVariantMappings (mapping : List (String × String)) (cfg : Config)
    (session : SessionState) (rows : List VRow) :
    (applyVariantMappings mapping cfg session rows).map (fun r => r.handle) =
      rows.map (fun r => r.handle) := by
  unfold applyVariantMappings
  rw [List.map_map]
  rfl

theorem map_handle_applySizeSurcharges (mapping : List (String × String)) (cfg : Config)
    (rows : List VRow) :
    (applySizeSurcharges mapping cfg rows).map (fun r => r.handle) =
      rows.map (fun r => r.handle) := by
  unfold applySizeSurcharges
  by_cases hs : cfg.enableSurcharge
  · simp only [hs, Bool.not_true, Bool.false_eq_true, if_false]
    rw [List.map_map]
    rfl
  · simp only [hs, Bool.not_false, if_true]

theorem filter_handle_map (g : VRow → VRow) (hg : ∀ r, (g r).handle = r.handle)
    (h : String) (l : List VRow) :
    (l.map g).filter (fun r => r.handle == h) =
      (l.filter (fun r => r.handle == h)).map g := by
  induction l with
  | nil => rfl
  | cons r t ih =>
    simp only [List.map_cons, List.filter_cons, hg r]
    by_cases hr : (r.handle == h) = true
    · simp [hr, ih]
    · simp only [Bool.not_eq_true] at hr
      simp [hr, ih]

end Linesht

namespace Linesht

theorem length_filter_applyVariantMappings (mapping : List (String × String)) (cfg : Config)
    (session : SessionState) (l : List VRow) (h : String) :
    ((applyVariantMappings mapping cfg session l).filter (fun r => r.handle == h)).length =
      (l.filter (fun r => r.handle == h)).length := by
  unfold applyVariantMappings
  rw [filter_handle_map (applyVariantMappingsRow mapping cfg session) (fun r => rfl) h l,
    List.length_map]

theorem length_filter_applySizeSurcharges (mapping : List (String × String)) (cfg : Config)
    (l : List VRow) (h : String) :
    ((applySizeSurcharges mapping cfg l).filter (fun r => r.handle == h)).length =
      (l.filter (fun r => r.handle == h)).length := by
  unfold applySizeSurcharges
  by_cases hs : cfg.enableSurcharge
  · simp only [hs, Bool.not_true, Bool.false_eq_true, if_false]
    rw [filter_handle_map (applySurchargeRow mapping cfg) (fun r => rfl) h l, List.length_map]
  · simp only [hs, Bool.not_false, if_true]

theorem lookup_cleanupRow (er : ERow) (k : String) :
    (cleanupRow er).lookup k = (er.lookup k).map cleanupField :=
  lookup_map_value cleanupField er k

/-- C5 (amended). Assembler shape: provided every exploded row carries a clean
handle string (true of slugified handles), the group handle `h` is non-blank,
the group exists, and the first row of the sorted group has a usable cleaned
title (non-blank and not a cleanup casualty; automatic when the title column
is unmapped, via the `'Unknown'` default), then the rows of the assembled
output bearing Handle `h` are exactly the cleanup of the group emission: the
sorted group's head becomes the one main row — the only row with a non-blank
Title and the first of the group in (size-order-index, colour) order — and
the group contributes exactly as many output rows as it has variant rows. -/
theorem assembler_group_shape (mapping : List (String × String)) (cfg : Config)
    (session : SessionState) (rows : List VRow) (h : String)
    (hclean : rows.all (fun r => isCleanHandle r.handle) = true)
    (hne : h ≠ "")
    (hmem : h ∈ rows.map (fun r => r.handle))
    (htitle : headTitleOk mapping (sortVariantsInGroup
      ((applyVariantMappings mapping cfg session (applySizeSurcharges mapping cfg rows)).filter
        (fun r => r.handle == h))) = true) :
    ((generateShopifyCsv mapping cfg session rows).filter
        (fun er => er.lookup "Handle" == some (Field.str h))) =
      (emitGroup mapping cfg h (sortVariantsInGroup
        ((applyVariantMappings mapping cfg session (applySizeSurcharges mapping cfg rows)).filter
          (fun r => r.handle == h)))).map cleanupRow ∧
    ((generateShopifyCsv mapping cfg session rows).filter
        (fun er => er.lookup "Handle" == some (Field.str h))).length =
      (rows.filter (fun r => r.handle == h)).length ∧
    (((generateShopifyCsv mapping cfg session rows).filter
        (fun er => er.lookup "Handle" == some (Field.str h))).filter titleNonBlank).length = 1 ∧
    ((generateShopifyCsv mapping cfg session rows).filter
        (fun er => er.lookup "Handle" == some (Field.str h))).head?.map titleNonBlank =
      some true := by
  set rows2 := applyVariantMappings mapping cfg session (applySizeSurcharges mapping cfg rows)
    with hrows2
  set grp := rows2.filter (fun r => r.handle == h) with hgrp
  set sorted := sortVariantsInGroup grp with hsorted
  have hmap2 : rows2.map (fun r => r.handle) = rows.map (fun r => r.handle) := by
    rw [hrows2, map_handle_applyVariantMappings, map_handle_applySizeSurcharges]
  have hcleanH : ∀ x ∈ rows2.map (fun r => r.handle), isCleanHandle x = true := by
    rw [hmap2]
    intro x hx
    obtain ⟨r, hr, rfl⟩ := List.mem_map.mp hx
    exact List.all_eq_true.mp hclean r hr
  have hhnodup : (sortStable strLe (dedupFirst (rows2.map (fun r => r.handle)))).Nodup :=
    (sortStable_perm _ _).nodup_iff.mpr (dedupFirst_nodup _)
  have hhmem : h ∈ sortStable strLe (dedupFirst (rows2.map (fun r => r.handle))) := by
    refine ((sortStable_perm strLe _).mem_iff).mpr ?_
    rw [dedupFirst_mem, hmap2]
    exact hmem
  have hout : generateShopifyCsv mapping cfg session rows =
      ((sortStable strLe (dedupFirst (rows2.map (fun r => r.handle)))).map
        (fun h2 => emitGroup mapping cfg h2
          (sortVariantsInGroup (rows2.filter (fun r => r.handle == h2))))).flatten.map
        cleanupRow := rfl
  have hfil : (generateShopifyCsv mapping cfg session rows).filter
      (fun er => er.lookup "Handle" == some (Field.str h)) =
      (emitGroup mapping cfg h sorted).map cleanupRow := by
    rw [hout, filter_map_flatten, List.map_map]
    have hcong : ∀ h2 ∈ sortStable strLe (dedupFirst (rows2.map (fun r => r.handle))),
        ((fun bl => (bl.map cleanupRow).filter
            (fun er => er.lookup "Handle" == some (Field.str h))) ∘
          (fun h2 => emitGroup mapping cfg h2
            (sortVariantsInGroup (rows2.filter (fun r => r.handle == h2))))) h2 =
        (fun k => if k = h then
            (emitGroup mapping cfg k
              (sortVariantsInGroup (rows2.filter (fun r => r.handle == k)))).map cleanupRow
          else []) h2 := by
      intro h2 hh2
      have hch2 : isCleanHandle h2 = true := by
        apply hcleanH h2
        have hmm := ((sortStable_perm strLe _).mem_iff).mp hh2
        exact (dedupFirst_mem _ _).mp hmm
      have hgrp2 : ∀ r ∈ sortVariantsInGroup (rows2.filter (fun r => r.handle == h2)),
          r.handle = h2 := by
        intro r hr
        have hr2 := ((sortVariantsInGroup_perm _).mem_iff).mp hr
        exact beq_iff_eq.mp (List.mem_filter.mp hr2).2
      have hhandles : ∀ er ∈ (emitGroup mapping cfg h2
            (sortVariantsInGroup (rows2.filter (fun r => r.handle == h2)))).map cleanupRow,
          er.lookup "Handle" = some (Field.str h2) := by
        intro er her
        obtain ⟨er0, her0, rfl⟩ := List.mem_map.mp her
        have h1 := emitGroup_handle mapping cfg h2 _ hgrp2 er0 her0
        have h2l : (cleanupRow er0).lookup "Handle" =
            (er0.lookup "Handle").map cleanupField := lookup_map_value _ er0 "Handle"
        rw [h2l, h1]
        simp only [Option.map_some']
        rw [cleanStr_of_cleanHandle h2 hch2, cleanupField_of_cleanHandle h2 hch2]
      by_cases hhh : h2 = h
      · subst hhh
        simp only [Function.comp_apply, if_pos rfl]
        apply List.filter_eq_self.mpr
        intro er her
        rw [hhandles er her]
        exact beq_self_eq_true _
      · simp only [Function.comp_apply, if_neg hhh]
        apply List.filter_eq_nil_iff.mpr
        intro er her
        intro hcon
        rw [hhandles er her] at hcon
        exact hhh (by simpa using hcon)
    rw [List.map_congr_left hcong]
    exact flatten_single
      (fun k => (emitGroup mapping cfg k
        (sortVariantsInGroup (rows2.filter (fun r => r.handle == k)))).map cleanupRow)
      h _ hhmem hhnodup
  have hgrplen : grp.length = (rows.filter (fun r => r.handle == h)).length := by
    rw [hgrp, hrows2, length_filter_applyVariantMappings, length_filter_applySizeSurcharges]
  have hgrpne : grp ≠ [] := by
    have hm2 : h ∈ rows2.map (fun r => r.handle) := by
      rw [hmap2]
      exact hmem
    obtain ⟨r, hr, hrh⟩ := List.mem_map.mp hm2
    intro hcon
    have hrg : r ∈ grp := List.mem_filter.mpr ⟨hr, beq_iff_eq.mpr hrh⟩
    rw [hcon] at hrg
    cases hrg
  obtain ⟨r0, rest, hs⟩ : ∃ r0 rest, sorted = r0 :: rest := by
    cases hsort : sorted with
    | nil =>
      exfalso
      apply hgrpne
      have hl := sortVariantsInGroup_length grp
      rw [← hsorted, hsort] at hl
      exact List.eq_nil_of_length_eq_zero hl.symm
    | cons a l => exact ⟨a, l, rfl⟩
  have htitle0 : cleanedTitleOk mapping r0 = true := by
    rw [hs] at htitle
    simpa [headTitleOk] using htitle
  have hmainT : titleNonBlank (cleanupRow (createMainProductRow mapping cfg r0)) = true := by
    have hT := htitle0
    simp only [cleanedTitleOk, Bool.and_eq_true, Bool.not_eq_true'] at hT
    unfold titleNonBlank
    rw [lookup_cleanupRow, lookup_title_main]
    simp only [Option.map_some']
    have hf : cleanupField (Field.str (resolveStr mapping r0.src "Title" "Unknown")) =
        Field.str (resolveStr mapping r0.src "Title" "Unknown") := by
      have hf0 : cleanupField (Field.str (resolveStr mapping r0.src "Title" "Unknown")) =
          Field.str (if resolveStr mapping r0.src "Title" "Unknown" ∈ badStrings then ""
            else resolveStr mapping r0.src "Title" "Unknown") := rfl
      rw [hf0, if_neg]
      simpa using hT.2
    rw [hf]
    simpa using hT.1
  have hvarT : ∀ er ∈ (rest.map (createVariantRow mapping cfg h)).map cleanupRow,
      titleNonBlank er = false := by
    intro er her
    obtain ⟨er0, her0, rfl⟩ := List.mem_map.mp her
    obtain ⟨r2, _, rfl⟩ := List.mem_map.mp her0
    rfl
  refine ⟨hfil, ?_, ?_, ?_⟩
  · rw [hfil, List.length_map, emitGroup_length, hsorted, sortVariantsInGroup_length]
    exact hgrplen
  · rw [hfil, hs]
    simp only [emitGroup, List.map_cons]
    rw [List.filter_cons_of_pos hmainT]
    have hnil : ((rest.map (createVariantRow mapping cfg h)).map cleanupRow).filter
        titleNonBlank = [] := by
      apply List.filter_eq_nil_iff.mpr
      intro er her hcon
      rw [hvarT er her] at hcon
      cases hcon
    rw [hnil]
    rfl
  · rw [hfil, hs]
    simp only [emitGroup, List.map_cons, List.head?_cons, Option.map_some']
    rw [hmainT]

end Linesht

namespace Linesht

/-- Source row for the assembler-shape witness: three sizes, one colour. -/
def shapeDemoRow : List (String × String) :=
  [("Title", "Cool Shirt"), ("SKU", "ABC"), ("Size", "S,M,L"), ("Colour", "Red")]

/-- Mapping for `shapeDemoRow`. -/
def shapeDemoMapping : List (String × String) :=
  [("Title", "Title"), ("product code", "SKU"), ("size", "Size"), ("colour", "Colour")]

theorem assembler_group_shape_witness :
    ((generateShopifyCsv shapeDemoMapping {} {}
        (processData shapeDemoMapping {} [shapeDemoRow])).filter
      (fun er => er.lookup "Handle" == some (Field.str "cool-shirt-abc"))).length = 3 := by
  have h := (assembler_group_shape shapeDemoMapping {} {}
    (processData shapeDemoMapping {} [shapeDemoRow]) "cool-shirt-abc"
    (by decide) (by decide) (by decide) (by decide)).2.1
  rw [h]
  decide

theorem lookup_status_main (mapping : List (String × String)) (cfg : Config) (r : VRow) :
    (createMainProductRow mapping cfg r).lookup "Status" = some (Field.str "draft") := rfl

theorem lookup_status_variant (mapping : List (String × String)) (cfg : Config)
    (h : String) (r : VRow) :
    (createVariantRow mapping cfg h r).lookup "Status" = some (Field.str "draft") := rfl

theorem emitGroup_status (mapping : List (String × String)) (cfg : Config) (h : String)
    (g : List VRow) :
    ∀ er ∈ emitGroup mapping cfg h g, er.lookup "Status" = some (Field.str "draft") := by
  cases g with
  | nil => intro er her; cases her
  | cons r rest =>
    intro er her
    rcases List.mem_cons.mp her with rfl | h2
    · exact lookup_status_main mapping cfg r
    · obtain ⟨r2, _, rfl⟩ := List.mem_map.mp h2
      exact lookup_status_variant mapping cfg h r2

/-- Source row with an active status, for the Published/Status contrast. -/
def pubRow : List (String × String) := [("Title", "Shirt"), ("Status", "active")]

/-- Mapping for `pubRow`: title and published columns. -/
def pubMapping : List (String × String) := [("Title", "Title"), ("published", "Status")]

/-- C10. Every row emitted by `DataProcessor.generate_shopify_csv` — main
product rows and variant rows alike, for every input frame, mapping,
configuration and session — has its Status column equal to the fixed string
`"draft"`; in particular a product whose mapped published field is
`"active"` is emitted with Published `"TRUE"` and Status `"draft"`
simultaneously. -/
theorem status_always_draft :
    (∀ (mapping : List (String × String)) (cfg : Config) (session : SessionState)
      (rows : List VRow),
      (generateShopifyCsv mapping cfg session rows).all
        (fun er => er.lookup "Status" == some (Field.str "draft")) = true) ∧
    (generateShopifyCsv pubMapping {} {} (processData pubMapping {} [pubRow])).map
      (fun er => (er.lookup "Published", er.lookup "Status")) =
      [(some (Field.str "TRUE"), some (Field.str "draft"))] := by
  constructor
  · intro mapping cfg session rows
    rw [List.all_eq_true]
    intro er her
    obtain ⟨er0, her0, rfl⟩ := List.mem_map.mp her
    obtain ⟨bl, hbl, her1⟩ := List.mem_flatten.mp her0
    obtain ⟨h2, _, rfl⟩ := List.mem_map.mp hbl
    have hst := emitGroup_status mapping cfg h2 _ er0 her1
    rw [lookup_cleanupRow, hst]
    exact beq_self_eq_true _
  · decide

/-- Source row with only a title: description, price and size are absent. -/
def nanDemoRow : List (String × String) := [("Name", "Shirt")]

/-- Mapping for `nanDemoRow`: only the title resolves. -/
def nanDemoMapping : List (String × String) := [("Title", "Name")]

/-- C9. No-NaN guarantee: running the full pipeline on a source row with
missing description, missing price and missing size yields exactly one output
row; no string field of any output cell is the literal `"nan"`, `"NaN"` or
`"None"`; the fields derived from the missing cells are the empty string
(Body (HTML), Option1 Value, Option2 Value) or zero (Variant Price, Variant
Compare At Price). Numeric cells are exact rationals in the embedding, so no
NaN value can reach the output. -/
theorem no_nan_guarantee_pipeline :
    (generateShopifyCsv nanDemoMapping {} {}
      (processData nanDemoMapping {} [nanDemoRow])).length = 1 ∧
    (generateShopifyCsv nanDemoMapping {} {}
      (processData nanDemoMapping {} [nanDemoRow])).all
      (fun er => er.all (fun kv =>
        match kv.2 with
        | Field.str s2 => !(badStrings.contains s2)
        | Field.num _ => true)) = true ∧
    ((generateShopifyCsv nanDemoMapping {} {}
      (processData nanDemoMapping {} [nanDemoRow])).headD []).lookup "Body (HTML)" =
      some (Field.str "") ∧
    ((generateShopifyCsv nanDemoMapping {} {}
      (processData nanDemoMapping {} [nanDemoRow])).headD []).lookup "Variant Price" =
      some (Field.num 0) ∧
    ((generateShopifyCsv nanDemoMapping {} {}
      (processData nanDemoMapping {} [nanDemoRow])).headD []).lookup
        "Variant Compare At Price" = some (Field.num 0) ∧
    ((generateShopifyCsv nanDemoMapping {} {}
      (processData nanDemoMapping {} [nanDemoRow])).headD []).lookup "Option1 Value" =
      some (Field.str "") ∧
    ((generateShopifyCsv nanDemoMapping {} {}
      (processData nanDemoMapping {} [nanDemoRow])).headD []).lookup "Option2 Value" =
      some (Field.str "") := by
  decide

end Linesht
